import Mathlib

/-!
# Verification of the whisper-chunks transcription backend

Shallow embedding of the session/chunk/segment state machine and the
merge-and-segment algorithm of the `whisper-chunks-test-be` repository.

JavaScript numbers that hold audio times (seconds) are modelled as `ℚ`;
token counts, sequence numbers and segment indices are `ℕ`; status enums
(string unions in the source) are modelled as `String` values.  Dates
(`createdAt`/`updatedAt`) carry no behaviour in the verified claims and are
not modelled.  Redis hashes are modelled at the entity level: one record
per natural key, as reconstructed by the marshalling code of the
repository (`getSession`/`getChunk`/`getSegment`).
-/

/-! ## JavaScript string primitives used by the merge engine -/

/-- Characters matched by the JavaScript regexp class `\s` (WhiteSpace and
LineTerminator), used by the whitespace-collapsing replace and `String.trim`. -/
def isJsWs (c : Char) : Bool :=
  c = ' ' || c = '\t' || c = '\n' || c = '\r' ||
  c.toNat = 0x0b || c.toNat = 0x0c || c.toNat = 0xa0 || c.toNat = 0x1680 ||
  (0x2000 ≤ c.toNat && c.toNat ≤ 0x200a) ||
  c.toNat = 0x2028 || c.toNat = 0x2029 || c.toNat = 0x202f ||
  c.toNat = 0x205f || c.toNat = 0x3000 || c.toNat = 0xfeff

/-- Source regexp-replace of runs of whitespace: every maximal run becomes a single
space.  The boolean argument records whether the previous character was part
of a whitespace run. -/
def collapseWsAux : Bool → List Char → List Char
  | _, [] => []
  | prevWs, c :: cs =>
    if isJsWs c then
      (if prevWs then [] else [' ']) ++ collapseWsAux true cs
    else
      c :: collapseWsAux false cs

def collapseWs (l : List Char) : List Char := collapseWsAux false l

/-- JavaScript `String.trim` on a character list: drop leading and trailing `\s`. -/
def jsTrimList (l : List Char) : List Char :=
  ((l.dropWhile isJsWs).reverse.dropWhile isJsWs).reverse

/-- JavaScript `s.trim()`. -/
def jsTrim (s : String) : String := String.mk (jsTrimList s.data)

/-- JavaScript collapse-then-trim (regexp replace of whitespace runs by a
single space, then trim) as used by `cleanJoin`. -/
def jsNormalizeWs (s : String) : String := String.mk (jsTrimList (collapseWs s.data))

/-- Source `estimateTokens`: `Math.ceil(text.length / 4)` (state.service.ts). -/
def estimateTokens (text : String) : Nat := (text.length + 3) / 4

/-- Characters stripped by `STRIP_BIDI = /[‎‏‪-‮]/g`. -/
def isBidiChar (c : Char) : Bool :=
  c.toNat = 0x200e || c.toNat = 0x200f ||
  (0x202a ≤ c.toNat && c.toNat ≤ 0x202e)

/-- Source `cleanupWord`: remove bidi/invisible direction chars; keep spacing as-is. -/
def cleanupWord (s : String) : String :=
  String.mk (s.data.filter (fun c => !isBidiChar c))

/-- JavaScript `toUpperCase` on one character; the statuses compared by the callback
controller are ASCII, so the ASCII case map is the relevant fragment of the
JavaScript semantics. -/
def jsToUpperChar (c : Char) : Char :=
  if 97 ≤ c.toNat ∧ c.toNat ≤ 122 then Char.ofNat (c.toNat - 32) else c

/-- JavaScript `s.toUpperCase()` (ASCII fragment). -/
def jsToUpper (s : String) : String := String.mk (s.data.map jsToUpperChar)

/-- JavaScript `x || null` on an optional string: the empty string is falsy
and collapses to `null`. -/
def jsStrOrNull (o : Option String) : Option String :=
  match o with
  | some s => if s = "" then none else some s
  | none => none

/-- JavaScript `x || 0` / `x ?? 0` on an optional number.  For the values
flowing through the merge engine the two coincide (`0 || 0 = 0`; `NaN` is not
modelled). -/
def jsOr0 (o : Option ℚ) : ℚ := o.getD 0

/-! ## Stable insertion sort by key

`Array.prototype.sort` with comparator `(a, b) => key(a) - key(b)` is a
stable sort by `key`; it is modelled by insertion sort, which is stable. -/

def insertByKey {α β : Type} [LinearOrder β] (f : α → β) (x : α) :
    List α → List α
  | [] => [x]
  | y :: ys => if f y ≤ f x then y :: insertByKey f x ys else x :: y :: ys

def sortByKey {α β : Type} [LinearOrder β] (f : α → β) : List α → List α
  | [] => []
  | x :: xs => insertByKey f x (sortByKey f xs)

/-! ## Transcription payloads (the `FWOutput` family) -/

/-- A word from the remote transcriber.  Source field `end` is a Lean keyword
and is rendered `endTime`. -/
structure FWWord where
  word : String
  start : Option ℚ := none
  endTime : Option ℚ := none
  deriving DecidableEq, Repr

structure FWSegment where
  text : String
  start : ℚ
  endTime : ℚ
  words : Option (List FWWord) := none
  deriving DecidableEq, Repr

/-- A transcription result.  `word_timestamps` exists only in the revisions
of `flattenWords` that read it; the other revision ignores the field. -/
structure FWOutput where
  segments : List FWSegment
  language : Option String := none
  word_timestamps : Option (List FWWord) := none
  deriving DecidableEq, Repr

/-- Source `cleanJoin` (identical in every revision of `StateService`): join the
word strings, collapse whitespace runs, trim. -/
def cleanJoin (words : List FWWord) : String :=
  jsNormalizeWs (String.join (words.map (·.word)))

/-! ## Shared entity records -/

/-- Segment record (db/segment.entity.ts).  `status` ranges over
`PENDING`, `SUMMARIZING`, `SUCCEEDED`, `FAILED`. -/
structure Segment where
  sessionId : String
  segmentIndex : Nat
  status : String
  startMs : Option ℚ := none
  endMs : Option ℚ := none
  tokenCount : Option Nat := none
  summaryS3Key : Option String := none
  deriving DecidableEq, Repr

/-- Chunk record (db/chunk.entity.ts). -/
structure Chunk where
  sessionId : String
  seq : Nat
  s3Key : String := ""
  startMs : ℚ := 0
  endMs : ℚ := 0
  status : String
  attempt : Nat := 0
  errorCode : Option String := none
  errorMessage : Option String := none
  transcriptS3Key : Option String := none
  language : Option String := none
  deriving DecidableEq, Repr

/-- An object-storage write: key, body, content type.  Bodies are modelled
structurally rather than as serialized JSON bytes. -/
inductive S3Body where
  | transcriptJson (output : FWOutput)
  | text (s : String)
  | summaryJson (sessionId : String) (segmentIndex : Nat)
  | consolidatedJson (sessionId : String) (keys : List String)
  deriving DecidableEq, Repr

structure S3Write where
  key : String
  body : S3Body
  contentType : String
  deriving DecidableEq, Repr

/-- Key `sessions/{sessionId}/transcripts/chunk-{seq}.json`. -/
def transcriptKey (sessionId : String) (seq : Nat) : String :=
  "sessions/" ++ sessionId ++ "/transcripts/chunk-" ++ toString seq ++ ".json"

/-- Key `sessions/{sessionId}/segments/segment-{idx}-input.txt`. -/
def segInputKey (sessionId : String) (idx : Nat) : String :=
  "sessions/" ++ sessionId ++ "/segments/segment-" ++ toString idx ++ "-input.txt"

/-- Key `sessions/{sessionId}/segments/segment-{idx}-summary.json`. -/
def segmentSummaryKey (sessionId : String) (idx : Nat) : String :=
  "sessions/" ++ sessionId ++ "/segments/segment-" ++ toString idx ++ "-summary.json"

/-! ## WM: the watermark revision of `StateService`
(state.service.ts, the revision holding `mergeAndMaybeSummarize` with
`epsilon`/`lastKeptEndSeconds`, the subject of the dedup-watermark and
segmentation claims).  The merge step touches only the session record, a
possible new segment row, one object-storage write and one summarizer
invocation; it is embedded as a function on those values. -/

namespace WM

/-- Session record as read and written by the watermark revision
(`createSession` defaults plus the fields the merge reads/writes). -/
structure Session where
  sessionId : String
  status : String
  therapistId : Option Int := none
  patientId : Option Int := none
  organizationId : Option Int := none
  appointmentId : Option Int := none
  lastKeptEndSeconds : ℚ
  rollingTokenCount : Nat
  nextSegmentIndex : Nat
  endRequested : Bool
  rollingText : String
  deriving DecidableEq, Repr

/-- The session created on first successful chunk when none exists
(`createSession({... lastKeptEndSeconds: 0, rollingTokenCount: 0, ...})`). -/
def freshSession (sessionId : String) : Session :=
  { sessionId := sessionId
    status := "TRANSCRIBING"
    lastKeptEndSeconds := 0
    rollingTokenCount := 0
    nextSegmentIndex := 0
    endRequested := false
    rollingText := "" }

/-- Source `epsilon = 0.15`. -/
def epsilon : ℚ := 15 / 100

/-- Source `flattenWords`, watermark revision: per segment, push its `words` when
present and non-empty, else one synthetic word per segment made of the
segment text plus a trailing space. -/
def flattenOne (s : FWSegment) : List FWWord :=
  match s.words with
  | some ws =>
    if ws.length ≠ 0 then ws
    else [{ word := s.text ++ " ", start := some s.start, endTime := some s.endTime }]
  | none => [{ word := s.text ++ " ", start := some s.start, endTime := some s.endTime }]

def flattenWords (output : FWOutput) : List FWWord :=
  (output.segments.map flattenOne).flatten

/-- The watermark filter loop: keep `w` iff `(w.end ?? 0) >
lastKeptEndSeconds - epsilon`. -/
def watermarkKept (lastKept : ℚ) : List FWWord → List FWWord
  | [] => []
  | w :: ws =>
    if lastKept - epsilon < jsOr0 w.endTime then w :: watermarkKept lastKept ws
    else watermarkKept lastKept ws

/-- Source `maxEndInChunk = Math.max(0, ...kept.map((w) => w.end || 0))`. -/
def maxEndInChunk (ws : List FWWord) : ℚ :=
  ws.foldl (fun a w => max a (jsOr0 w.endTime)) 0

/-- Words kept by the merge for a given session state. -/
def mergeKept (s : Session) (output : FWOutput) : List FWWord :=
  watermarkKept s.lastKeptEndSeconds (flattenWords output)

/-- The text a chunk contributes after the watermark filter. -/
def mergeText (s : Session) (output : FWOutput) : String :=
  cleanJoin (mergeKept s output)

/-- Source `combinedText`: the rolling text, then — when the new text is
non-empty — a single space and the new text. -/
def mergeCombined (s : Session) (output : FWOutput) : String :=
  s.rollingText ++ (if mergeText s output = "" then "" else " " ++ mergeText s output)

/-- Source `newTokenCount = session.rollingTokenCount + tokens`. -/
def mergeNewTokenCount (s : Session) (output : FWOutput) : Nat :=
  s.rollingTokenCount + estimateTokens (mergeText s output)

/-- Source `newEnd = Math.max(session.lastKeptEndSeconds, maxEndInChunk)`. -/
def mergeNewEnd (s : Session) (output : FWOutput) : ℚ :=
  max s.lastKeptEndSeconds (maxEndInChunk (flattenWords output))

/-- Source `shouldSummarize = combinedText.trim().length > 0 && newTokenCount >= threshold`. -/
def shouldSummarize (threshold : Nat) (s : Session) (output : FWOutput) : Bool :=
  decide (0 < (jsTrim (mergeCombined s output)).length) &&
  decide (threshold ≤ mergeNewTokenCount s output)

/-- Result of one merge step: the stored session, the segment row created on
a cut (if any), the object-storage writes and the summarizer invocations. -/
structure MergeResult where
  session : Session
  createdSegment : Option Segment
  s3Writes : List S3Write
  summarizerCalls : List (String × Nat × String)
  deriving DecidableEq, Repr

/-- Source `mergeAndMaybeSummarize` (watermark revision).  `sessionIn` is the
stored session before the call (`none` triggers lazy creation). -/
def mergeAndMaybeSummarize (threshold : Nat) (sessionId : String)
    (sessionIn : Option Session) (output : FWOutput) : MergeResult :=
  let session := sessionIn.getD (freshSession sessionId)
  if shouldSummarize threshold session output then
    let idx := session.nextSegmentIndex
    let key := segInputKey sessionId idx
    { session :=
        { session with
          nextSegmentIndex := idx + 1
          rollingTokenCount := 0
          rollingText := ""
          lastKeptEndSeconds := mergeNewEnd session output }
      createdSegment := some
        { sessionId := sessionId
          segmentIndex := idx
          status := "PENDING"
          tokenCount := some (mergeNewTokenCount session output) }
      s3Writes := [⟨key, S3Body.text (jsTrim (mergeCombined session output)), "text/plain"⟩]
      summarizerCalls := [(sessionId, idx, key)] }
  else
    { session :=
        { session with
          rollingText := mergeCombined session output
          rollingTokenCount := mergeNewTokenCount session output
          lastKeptEndSeconds := mergeNewEnd session output }
      createdSegment := none
      s3Writes := []
      summarizerCalls := [] }

/-- Session evolution across a sequence of successful chunk callbacks
(`handleSuccess` performs exactly one merge step per call; the merge step is
the only writer of the rolling state and watermark of the session). -/
def applyChunkSuccesses (threshold : Nat) (sessionId : String)
    (s : Session) (outs : List FWOutput) : Session :=
  outs.foldl (fun acc out => (mergeAndMaybeSummarize threshold sessionId (some acc) out).session) s

end WM

/-! ## V1: the revision of the named files
(state.service.ts with the idempotency guard and the
`word_timestamps`-aware `flattenWords`; callback.controller.ts passing
`startMs`; finalize.controller.ts; redis.service.ts modelled at the entity
level).  Effects on Redis, object storage and the Lambda collaborators are
threaded through an explicit `Store`. -/

namespace V1

/-- Session record as marshalled by the `getSession` of this revision. -/
structure Session where
  sessionId : String
  status : String
  therapistId : Option Int := none
  patientId : Option Int := none
  organizationId : Option Int := none
  appointmentId : Option Int := none
  rollingTokenCount : Nat
  nextSegmentIndex : Nat
  nextExpectedSeq : Nat := 0
  endRequested : Bool
  rollingText : String
  deriving DecidableEq, Repr

/-- Source `createSession` defaults on lazy creation (`nextExpectedSeq` is not in
the created object; `getSession` reads it back as 0). -/
def freshSession (sessionId : String) : Session :=
  { sessionId := sessionId
    status := "TRANSCRIBING"
    rollingTokenCount := 0
    nextSegmentIndex := 0
    nextExpectedSeq := 0
    endRequested := false
    rollingText := "" }

/-- External Lambda invocations (payloads are opaque to the claims). -/
inductive LambdaCall where
  | chunkSummarizer (sessionId : String) (segmentIndex : Nat)
  | finalizer (sessionId : String) (consolidatedKey : String)
  deriving DecidableEq, Repr

/-- The shared mutable world: Redis entities plus the logs of
object-storage writes and Lambda invocations. -/
structure Store where
  chunks : String → Nat → Option Chunk
  sessions : String → Option Session
  segments : List Segment
  s3Writes : List S3Write := []
  lambdaCalls : List LambdaCall := []

def s3Put (st : Store) (key : String) (body : S3Body) (ct : String) : Store :=
  { st with s3Writes := st.s3Writes ++ [⟨key, body, ct⟩] }

/-- Record reconstructed by `getChunk` when an update touched a key that had
no record yet (redis `hset` creates the hash; absent fields read back as
defaults). -/
def chunkHashDefaults (sessionId : String) (seq : Nat) : Chunk :=
  { sessionId := sessionId, seq := seq, status := "UPLOADED" }

/-- Source `updateChunk`: partial field update keyed by (sessionId, seq). -/
def updateChunk (st : Store) (sessionId : String) (seq : Nat)
    (f : Chunk → Chunk) : Store :=
  { st with
    chunks := fun i q =>
      if i = sessionId ∧ q = seq then
        some (f ((st.chunks sessionId seq).getD (chunkHashDefaults sessionId seq)))
      else st.chunks i q }

/-- Record reconstructed by `getSession` from a hash created by a partial
update (absent fields read back as marshalling defaults). -/
def sessionHashDefaults (sessionId : String) : Session :=
  { sessionId := sessionId
    status := ""
    rollingTokenCount := 0
    nextSegmentIndex := 0
    nextExpectedSeq := 0
    endRequested := false
    rollingText := "" }

def updateSession (st : Store) (sessionId : String) (f : Session → Session) : Store :=
  { st with
    sessions := fun i =>
      if i = sessionId then
        some (f ((st.sessions sessionId).getD (sessionHashDefaults sessionId)))
      else st.sessions i }

/-- Source `createSession`: writes the full record. -/
def createSession (st : Store) (s : Session) : Store :=
  { st with
    sessions := fun i => if i = s.sessionId then some s else st.sessions i }

/-- Source `createSegment`: redis `hset` on the segment key — replaces the record
when one exists for (sessionId, segmentIndex), otherwise adds it. -/
def createSegment (st : Store) (g : Segment) : Store :=
  if st.segments.any (fun x =>
      x.sessionId == g.sessionId && x.segmentIndex == g.segmentIndex) then
    { st with
      segments := st.segments.map (fun x =>
        if x.sessionId == g.sessionId && x.segmentIndex == g.segmentIndex then g else x) }
  else { st with segments := st.segments ++ [g] }

/-- Source `updateSegment`: partial field update keyed by (sessionId, segmentIndex).
Every call site updates a row created earlier in the same operation. -/
def updateSegment (st : Store) (sessionId : String) (idx : Nat)
    (f : Segment → Segment) : Store :=
  { st with
    segments := st.segments.map (fun g =>
      if g.sessionId == sessionId && g.segmentIndex == idx then f g else g) }

/-- Source `getSegmentsBySession`: the segment rows of the session sorted ascending by
`segmentIndex` (`.sort((a, b) => a.segmentIndex - b.segmentIndex)`). -/
def getSegmentsBySession (st : Store) (sessionId : String) : List Segment :=
  sortByKey (·.segmentIndex) (st.segments.filter (fun g => g.sessionId == sessionId))

/-- Source `flattenWords(output, offsetSeconds = 0)`, fallback path for one entry of
`segments[]`.  `s?.start ?? 0` and `s?.end ?? s?.start ?? 0` reduce to the
required fields of the segment itself.  The source adds `offsetSeconds` once more
on top of `startBase` when a word lacks its own `start`; this is kept
verbatim. -/
def flattenFallbackOne (offsetSeconds : ℚ) (s : FWSegment) : List FWWord :=
  let startBase := s.start + offsetSeconds
  let endBase := s.endTime + offsetSeconds
  match s.words with
  | some ws =>
    if ws.length ≠ 0 then
      ws.map (fun w =>
        { word := cleanupWord w.word ++ " "
          start := some ((w.start.getD startBase) + offsetSeconds)
          endTime := some (((w.endTime.orElse fun _ => w.start).getD startBase) + offsetSeconds) })
    else
      [{ word := cleanupWord s.text ++ " ", start := some startBase, endTime := some endBase }]
  | none =>
    [{ word := cleanupWord s.text ++ " ", start := some startBase, endTime := some endBase }]

def flattenFallback (output : FWOutput) (offsetSeconds : ℚ) : List FWWord :=
  sortByKey (fun w => jsOr0 w.start)
    ((output.segments.map (flattenFallbackOne offsetSeconds)).flatten)

/-- Source `flattenWords` (offset-aware revision, identical in state.service.ts and
its sibling revision): prefer top-level `word_timestamps` when present and
non-empty, else fall back to `segments[]`; sort by start either way. -/
def flattenWords (output : FWOutput) (offsetSeconds : ℚ) : List FWWord :=
  match output.word_timestamps with
  | some wt =>
    if wt.length ≠ 0 then
      sortByKey (fun w => jsOr0 w.start)
        (wt.map (fun w =>
          { word := cleanupWord w.word ++ " "
            start := some (w.start.getD 0 + offsetSeconds)
            endTime := some ((w.endTime.orElse fun _ => w.start).getD 0 + offsetSeconds) }))
    else flattenFallback output offsetSeconds
  | none => flattenFallback output offsetSeconds

/-- Source `invokeChunkSummarizer`: mark the segment SUMMARIZING, invoke the Lambda,
persist its (opaque) response as the summary object, then mark the segment
SUCCEEDED with the summary key. -/
def invokeChunkSummarizer (st : Store) (sessionId : String) (idx : Nat)
    (_segKey : String) : Store :=
  let st1 := updateSegment st sessionId idx (fun g => { g with status := "SUMMARIZING" })
  let st2 := { st1 with lambdaCalls := st1.lambdaCalls ++ [LambdaCall.chunkSummarizer sessionId idx] }
  let skey := segmentSummaryKey sessionId idx
  let st3 := s3Put st2 skey (S3Body.summaryJson sessionId idx) "application/json"
  updateSegment st3 sessionId idx
    (fun g => { g with status := "SUCCEEDED", summaryS3Key := some skey })

/-- Source `mergeAndMaybeSummarize` (guarded revision: no watermark; the flatten
call passes no offset, so the default 0 applies). -/
def mergeAndMaybeSummarize (threshold : Nat) (st : Store) (sessionId : String)
    (output : FWOutput) : Store :=
  let words := flattenWords output 0
  let text := cleanJoin words
  let stc := match st.sessions sessionId with
    | some _ => st
    | none => createSession st (freshSession sessionId)
  let session := (st.sessions sessionId).getD (freshSession sessionId)
  let tokens := estimateTokens text
  let combinedText :=
    if session.rollingText ≠ "" then session.rollingText ++ " " ++ text else text
  let newTokenCount := session.rollingTokenCount + tokens
  if decide (0 < (jsTrim combinedText).length) && decide (threshold ≤ newTokenCount) then
    let idx := session.nextSegmentIndex
    let key := segInputKey sessionId idx
    let st1 := createSegment stc
      { sessionId := sessionId, segmentIndex := idx, status := "PENDING"
        tokenCount := some newTokenCount }
    let st2 := updateSession st1 sessionId
      (fun s => { s with nextSegmentIndex := idx + 1, rollingTokenCount := 0, rollingText := "" })
    let st3 := s3Put st2 key (S3Body.text (jsTrim combinedText)) "text/plain"
    invokeChunkSummarizer st3 sessionId idx key
  else
    updateSession stc sessionId
      (fun s => { s with rollingText := combinedText, rollingTokenCount := newTokenCount })

/-- The body of `handleSuccess` past the idempotency guard. -/
def handleSuccessProceed (threshold : Nat) (st : Store) (sessionId : String)
    (seq : Nat) (output : FWOutput) : Store :=
  let key := transcriptKey sessionId seq
  let st1 := s3Put st key (S3Body.transcriptJson output) "application/json"
  let st2 := updateChunk st1 sessionId seq
    (fun c => { c with status := "SUCCEEDED", transcriptS3Key := some key
                       language := jsStrOrNull output.language })
  mergeAndMaybeSummarize threshold st2 sessionId output

/-- The idempotency guard: the existing chunk has status `SUCCEEDED` and a
truthy `transcriptS3Key` (a recorded key is non-empty, hence truthy). -/
def succeededGuard (c : Option Chunk) : Bool :=
  match c with
  | some c => decide (c.status = "SUCCEEDED") && c.transcriptS3Key.isSome
  | none => false

/-- Source `handleSuccess` (the chunk-success handler).  `startMs` is accepted but
unused in this revision (the merge call passes only sessionId and output). -/
def handleSuccess (threshold : Nat) (st : Store) (sessionId : String)
    (seq : Nat) (output : FWOutput) (_startMs : ℚ) : Store :=
  if succeededGuard (st.chunks sessionId seq) then st
  else handleSuccessProceed threshold st sessionId seq output

/-- Source `setChunkStatus`: `updateChunk(sessionId, seq, { status, ...extra })`. -/
def setChunkStatus (st : Store) (sessionId : String) (seq : Nat)
    (status : String) (extra : Chunk → Chunk := id) : Store :=
  updateChunk st sessionId seq (fun c => extra { c with status := status })

/-- The POST body of the runpod callback.  `outputOrSelf` models
`body.output || body`: the transcription payload carried by the body. -/
structure CallbackBody where
  status : Option String := none
  errorCode : Option String := none
  errorMessage : Option String := none
  outputOrSelf : FWOutput := { segments := [] }
  deriving DecidableEq, Repr

structure CallbackResponse where
  ok : Bool
  ignored : Bool := false
  deriving DecidableEq, Repr

/-- Source `runpodCallback` (callback.controller.ts): dispatch on
the uppercased body status (empty when the field is absent). -/
def runpodCallback (threshold : Nat) (st : Store) (sessionId : String)
    (seq : Nat) (startMs : ℚ) (body : CallbackBody) : CallbackResponse × Store :=
  let status := jsToUpper (body.status.getD "")
  if status = "IN_QUEUE" then
    ({ ok := true }, setChunkStatus st sessionId seq "QUEUED_REMOTE")
  else if status = "IN_PROGRESS" then
    ({ ok := true }, setChunkStatus st sessionId seq "IN_PROGRESS")
  else if status = "FAILED" ∨ status = "CANCELLED" then
    ({ ok := true }, setChunkStatus st sessionId seq status
      (fun c => { c with errorCode := jsStrOrNull body.errorCode
                         errorMessage := jsStrOrNull body.errorMessage }))
  else if status = "SUCCEEDED" ∨ status = "COMPLETED" then
    ({ ok := true }, handleSuccess threshold st sessionId seq body.outputOrSelf startMs)
  else
    ({ ok := true, ignored := true }, st)

end V1

namespace V1

/-- The metadata patch applied first by `finalize`: mark FINALIZING, set
`endRequested`, and apply any late-supplied business identifiers (each only
when provided). -/
def finalizePatch (t p o a : Option Int) (s : Session) : Session :=
  { s with
    endRequested := true
    status := "FINALIZING"
    therapistId := match t with | some v => some v | none => s.therapistId
    patientId := match p with | some v => some v | none => s.patientId
    organizationId := match o with | some v => some v | none => s.organizationId
    appointmentId := match a with | some v => some v | none => s.appointmentId }

/-- The body of the rolling-text flush of `finalize`, given the session `s`
read back after the metadata patch. -/
def finalizeFlushGo (st1 : Store) (sessionId : String) (s : Session) : Store :=
  if jsTrim s.rollingText ≠ "" then
    let idx := s.nextSegmentIndex
    let key := segInputKey sessionId idx
    let st2 := s3Put st1 key (S3Body.text (jsTrim s.rollingText)) "text/plain"
    let st3 := createSegment st2
      { sessionId := sessionId, segmentIndex := idx, status := "PENDING" }
    let st4 := invokeChunkSummarizer st3 sessionId idx key
    updateSession st4 sessionId
      (fun u => { u with nextSegmentIndex := idx + 1, rollingText := "", rollingTokenCount := 0 })
  else st1

/-- Steps (a)-(b) of `finalize`: apply the metadata patch, then flush any
leftover rolling text as a final segment (`if (s && s.rollingText.trim())`). -/
def finalizeFlushStore (st : Store) (sessionId : String)
    (t p o a : Option Int) : Store :=
  let st1 := updateSession st sessionId (finalizePatch t p o a)
  match st1.sessions sessionId with
  | some s => finalizeFlushGo st1 sessionId s
  | none => st1

/-- Step (c): `all.filter((x) => x.summaryS3Key).map((x) => x.summaryS3Key!)`
over the index-sorted segment rows. -/
def finalizeCollectedKeys (st : Store) (sessionId : String) : List String :=
  ((getSegmentsBySession st sessionId).filter (fun x => x.summaryS3Key.isSome)).map
    (fun x => x.summaryS3Key.getD "")

def consolidatedSummaryKey (sessionId : String) : String :=
  "sessions/" ++ sessionId ++ "/final/consolidated-summary.json"

/-- Source `combineSegments`: persist the consolidated artifact naming the collected
summary keys; returns its storage key. -/
def combineSegments (st : Store) (sessionId : String) (keys : List String) :
    Store × String :=
  let key := consolidatedSummaryKey sessionId
  (s3Put st key (S3Body.consolidatedJson sessionId keys) "application/json", key)

/-- Source `invokeFinalizerLambda`: throws when the session is missing. -/
def invokeFinalizerLambda (st : Store) (sessionId : String)
    (consolidatedKey : String) : Except String Store :=
  match st.sessions sessionId with
  | none => .error ("Session " ++ sessionId ++ " not found")
  | some _ =>
    .ok { st with lambdaCalls := st.lambdaCalls ++ [LambdaCall.finalizer sessionId consolidatedKey] }

structure FinalizeResponse where
  ok : Bool
  consolidatedKey : String
  deriving DecidableEq, Repr

/-- Source `finalize` (finalize.controller.ts): patch + flush, collect summary keys,
combine, invoke the finalizer Lambda, mark the session COMPLETE. -/
def finalize (st : Store) (sessionId : String) (t p o a : Option Int) :
    Except String (FinalizeResponse × Store) :=
  let st2 := finalizeFlushStore st sessionId t p o a
  let keys := finalizeCollectedKeys st2 sessionId
  let (st3, ckey) := combineSegments st2 sessionId keys
  match invokeFinalizerLambda st3 sessionId ckey with
  | .error e => .error e
  | .ok st4 =>
    .ok ({ ok := true, consolidatedKey := ckey },
         updateSession st4 sessionId (fun s => { s with status := "COMPLETE" }))

end V1

/-! ## OFF: the offset-plumbing revision of `StateService`
(the sibling revision whose `handleSuccess` computes `offsetSeconds =
startMs / 1000` and passes it to `mergeAndMaybeSummarize`; its
`flattenWords` is character-identical to `V1.flattenWords` and its merge
body is the watermark merge).  Embedded at the session level like `WM`. -/

namespace OFF

/-- Source `const offsetSeconds = (Number(startMs) || 0) / 1000` in `handleSuccess`. -/
def handleSuccessOffsetSeconds (startMs : ℚ) : ℚ := startMs / 1000

/-- The word list computed inside `mergeAndMaybeSummarize`: the source line
reads `const words = this.flattenWords(output);` — its
`offsetSeconds` parameter is not forwarded, so the default 0 applies. -/
def mergeWordsUsed (output : FWOutput) (_offsetSeconds : ℚ) : List FWWord :=
  V1.flattenWords output 0

/-- Source `mergeAndMaybeSummarize(sessionId, output, offsetSeconds)` of this
revision: identical to the watermark merge except for the (unused)
`offsetSeconds` parameter and the offset-aware `flattenWords` in scope. -/
def mergeAndMaybeSummarize (threshold : Nat) (sessionId : String)
    (sessionIn : Option WM.Session) (output : FWOutput) (offsetSeconds : ℚ) :
    WM.MergeResult :=
  let words := mergeWordsUsed output offsetSeconds
  let session := sessionIn.getD (WM.freshSession sessionId)
  let kept := WM.watermarkKept session.lastKeptEndSeconds words
  let text := cleanJoin kept
  let tokens := estimateTokens text
  let newEnd := max session.lastKeptEndSeconds (WM.maxEndInChunk words)
  let combinedText := session.rollingText ++ (if text = "" then "" else " " ++ text)
  let newTokenCount := session.rollingTokenCount + tokens
  if decide (0 < (jsTrim combinedText).length) && decide (threshold ≤ newTokenCount) then
    let idx := session.nextSegmentIndex
    let key := segInputKey sessionId idx
    { session :=
        { session with
          nextSegmentIndex := idx + 1
          rollingTokenCount := 0
          rollingText := ""
          lastKeptEndSeconds := newEnd }
      createdSegment := some
        { sessionId := sessionId, segmentIndex := idx, status := "PENDING"
          tokenCount := some newTokenCount }
      s3Writes := [⟨key, S3Body.text (jsTrim combinedText), "text/plain"⟩]
      summarizerCalls := [(sessionId, idx, key)] }
  else
    { session :=
        { session with
          rollingText := combinedText
          rollingTokenCount := newTokenCount
          lastKeptEndSeconds := newEnd }
      createdSegment := none
      s3Writes := []
      summarizerCalls := [] }

end OFF

/-- The wording of the watermark-update claim: the maximum of the previous
watermark and the end times of all listed words. -/
def maxEndFrom (w0 : ℚ) (ws : List FWWord) : ℚ :=
  ws.foldl (fun a w => max a (jsOr0 w.endTime)) w0

/-! ## Demo inputs for witnesses and counterexamples -/

def demoOutput : FWOutput :=
  { segments := [{ text := "hello world", start := 0, endTime := 1 }] }

def demoSessionC1 : WM.Session :=
  { WM.freshSession "s" with lastKeptEndSeconds := 103 / 10 }

def demoWordB : FWWord :=
  { word := "b ", start := some (51 / 5), endTime := some (207 / 20) }

def demoOutputC1 : FWOutput :=
  { segments := [{ text := "a b", start := 10, endTime := 21 / 2
                   words := some [{ word := "a ", start := some 10, endTime := some (51 / 5) },
                                  demoWordB] }] }

def demoOutputC5 : FWOutput :=
  { segments := []
    word_timestamps := some [{ word := "hi", start := some 0, endTime := some 1 }] }

def demoOutputC8 : FWOutput :=
  { segments := [{ text := "abcd", start := 0, endTime := 1 }] }

def demoChunk : Chunk :=
  { sessionId := "s1", seq := 3, status := "SUCCEEDED"
    transcriptS3Key := some (transcriptKey "s1" 3) }

/-- An empty world. -/
def demoStore : V1.Store :=
  { chunks := fun _ _ => none, sessions := fun _ => none, segments := [] }

/-- A world holding one already-succeeded chunk ("s1", 3). -/
def demoStoreC3 : V1.Store :=
  { chunks := fun i q => if i = "s1" ∧ q = 3 then some demoChunk else none
    sessions := fun _ => none
    segments := [] }

def demoV1Session : V1.Session :=
  { sessionId := "s1", status := "TRANSCRIBING", rollingTokenCount := 5
    nextSegmentIndex := 2, endRequested := false, rollingText := "tail" }

/-- A world holding one session with leftover rolling text. -/
def demoStoreC7 : V1.Store :=
  { chunks := fun _ _ => none
    sessions := fun i => if i = "s1" then some demoV1Session else none
    segments := [] }

/-! ## Helper lemmas -/

theorem toNat_charOfNat (n : Nat) (h1 : 65 ≤ n) (h2 : n ≤ 90) :
    (Char.ofNat n).toNat = n := by
  have hv : n.isValidChar := Or.inl (by omega)
  simp only [Char.ofNat, hv, dif_pos]
  simp only [Char.ofNatAux, Char.toNat, UInt32.toNat, UInt32.ofNatCore, BitVec.toNat_ofNatLt]

theorem jsToUpperChar_idem (c : Char) :
    jsToUpperChar (jsToUpperChar c) = jsToUpperChar c := by
  unfold jsToUpperChar
  by_cases h : 97 ≤ c.toNat ∧ c.toNat ≤ 122
  · rw [if_pos h]
    have ht : (Char.ofNat (c.toNat - 32)).toNat = c.toNat - 32 :=
      toNat_charOfNat _ (by omega) (by omega)
    rw [if_neg (by omega)]
  · rw [if_neg h, if_neg h]

theorem jsToUpper_idem (s : String) : jsToUpper (jsToUpper s) = jsToUpper s := by
  simp only [jsToUpper, String.data]
  congr 1
  rw [List.map_map]
  exact List.map_congr_left (fun c _ => jsToUpperChar_idem c)

theorem dropWhile_head_not {α : Type} {p : α → Bool} :
    ∀ {l : List α} {c : α} {cs : List α}, l.dropWhile p = c :: cs → p c = false := by
  intro l
  induction l with
  | nil => intro c cs h; simp [List.dropWhile] at h
  | cons x xs ih =>
    intro c cs h
    by_cases hx : p x
    · rw [List.dropWhile_cons_of_pos hx] at h
      exact ih h
    · rw [List.dropWhile_cons_of_neg hx] at h
      obtain ⟨rfl, -⟩ := List.cons.inj h
      exact Bool.not_eq_true _ ▸ (by simpa using hx)

theorem jsTrimList_eq_nil_imp {l : List Char} (h : jsTrimList l = []) :
    ∀ c ∈ l, isJsWs c = true := by
  unfold jsTrimList at h
  rw [List.reverse_eq_nil_iff] at h
  rw [List.dropWhile_eq_nil_iff] at h
  intro c hc
  rcases List.mem_append.mp ((List.takeWhile_append_dropWhile isJsWs l) ▸ hc) with hm | hm
  · exact List.mem_takeWhile_imp hm
  · exact h c (by simpa using hm)

theorem jsTrimList_ne_nil_exists {l : List Char} (h : jsTrimList l ≠ []) :
    ∃ c ∈ jsTrimList l, isJsWs c = false := by
  unfold jsTrimList at *
  rcases hv : ((l.dropWhile isJsWs).reverse.dropWhile isJsWs) with _ | ⟨c, cs⟩
  · rw [hv] at h; simp at h
  · refine ⟨c, ?_, dropWhile_head_not hv⟩
    simp

theorem jsTrim_empty : jsTrim "" = "" := rfl

theorem jsTrim_eq_empty_imp {s : String} (h : jsTrim s = "") :
    ∀ c ∈ s.data, isJsWs c = true := by
  apply jsTrimList_eq_nil_imp
  have hd : (jsTrim s).data = ("" : String).data := by rw [h]
  simpa [jsTrim] using hd

theorem exists_nonWs_jsTrim_ne {s : String} (h : ∃ c ∈ s.data, isJsWs c = false) :
    jsTrim s ≠ "" := by
  intro he
  obtain ⟨c, hc, hcw⟩ := h
  have hw := jsTrim_eq_empty_imp he c hc
  rw [hw] at hcw
  exact Bool.noConfusion hcw

theorem cleanJoin_ne_empty_exists {ws : List FWWord} (h : cleanJoin ws ≠ "") :
    ∃ c ∈ (cleanJoin ws).data, isJsWs c = false := by
  unfold cleanJoin jsNormalizeWs at *
  apply jsTrimList_ne_nil_exists
  intro he
  apply h
  show String.mk _ = ""
  rw [he]

theorem mem_watermarkKept (lk : ℚ) (ws : List FWWord) (w : FWWord) :
    w ∈ WM.watermarkKept lk ws ↔ w ∈ ws ∧ lk - WM.epsilon < jsOr0 w.endTime := by
  induction ws with
  | nil => simp [WM.watermarkKept]
  | cons x xs ih =>
    by_cases h : lk - WM.epsilon < jsOr0 x.endTime
    · simp only [WM.watermarkKept, if_pos h, List.mem_cons, ih]
      constructor
      · rintro (rfl | ⟨hm, hlt⟩)
        · exact ⟨Or.inl rfl, h⟩
        · exact ⟨Or.inr hm, hlt⟩
      · rintro ⟨rfl | hm, hlt⟩
        · exact Or.inl rfl
        · exact Or.inr ⟨hm, hlt⟩
    · simp only [WM.watermarkKept, if_neg h, List.mem_cons, ih]
      constructor
      · rintro ⟨hm, hlt⟩
        exact ⟨Or.inr hm, hlt⟩
      · rintro ⟨rfl | hm, hlt⟩
        · exact absurd hlt h
        · exact ⟨hm, hlt⟩

theorem maxEndFrom_hoist (ws : List FWWord) (a b : ℚ) :
    max a (maxEndFrom b ws) = maxEndFrom (max a b) ws := by
  induction ws generalizing b with
  | nil => simp [maxEndFrom]
  | cons x xs ih =>
    simp only [maxEndFrom, List.foldl_cons] at *
    rw [ih (max b (jsOr0 x.endTime)), max_assoc]

theorem merge_lastKept (threshold : Nat) (sessionId : String) (s : WM.Session)
    (out : FWOutput) :
    (WM.mergeAndMaybeSummarize threshold sessionId (some s) out).session.lastKeptEndSeconds
      = WM.mergeNewEnd s out := by
  by_cases h : WM.shouldSummarize threshold s out <;>
    simp [WM.mergeAndMaybeSummarize, h]

theorem string_pos_length_iff (t : String) : 0 < t.length ↔ t ≠ "" := by
  rw [String.length]
  rw [List.length_pos]
  constructor
  · intro h he
    exact h (by rw [he])
  · intro h hd
    exact h (by cases t with | mk d => simp at hd; rw [hd])

theorem mergeCombined_trim_ne_iff (s : WM.Session) (out : FWOutput)
    (hinv : jsTrim s.rollingText = "" → s.rollingText = "") :
    jsTrim (WM.mergeCombined s out) ≠ "" ↔ WM.mergeCombined s out ≠ "" := by
  constructor
  · intro h hc
    rw [hc] at h
    exact h jsTrim_empty
  · intro h
    by_cases ht : WM.mergeText s out = ""
    · have hce : WM.mergeCombined s out = s.rollingText := by
        unfold WM.mergeCombined
        rw [ht]
        simp
      rw [hce] at h ⊢
      intro he
      exact h (hinv he)
    · unfold WM.mergeCombined at h ⊢
      rw [if_neg ht] at h ⊢
      obtain ⟨c, hc, hcw⟩ := @cleanJoin_ne_empty_exists (WM.mergeKept s out) ht
      apply exists_nonWs_jsTrim_ne
      refine ⟨c, ?_, hcw⟩
      simp only [String.data_append]
      exact List.mem_append.mpr (Or.inr (List.mem_append.mpr (Or.inr hc)))

theorem shouldSummarize_iff (threshold : Nat) (s : WM.Session) (out : FWOutput)
    (hinv : jsTrim s.rollingText = "" → s.rollingText = "") :
    WM.shouldSummarize threshold s out = true ↔
      (WM.mergeCombined s out ≠ "" ∧ threshold ≤ WM.mergeNewTokenCount s out) := by
  unfold WM.shouldSummarize
  rw [Bool.and_eq_true, decide_eq_true_eq, decide_eq_true_eq]
  rw [string_pos_length_iff, mergeCombined_trim_ne_iff s out hinv]

theorem insertByKey_perm {α β : Type} [LinearOrder β] (f : α → β) (x : α)
    (l : List α) : List.Perm (insertByKey f x l) (x :: l) := by
  induction l with
  | nil => exact List.Perm.refl _
  | cons y ys ih =>
    unfold insertByKey
    by_cases h : f y ≤ f x
    · rw [if_pos h]
      exact (ih.cons y).trans (List.Perm.swap x y ys)
    · rw [if_neg h]

theorem sortByKey_perm {α β : Type} [LinearOrder β] (f : α → β) (l : List α) :
    List.Perm (sortByKey f l) l := by
  induction l with
  | nil => exact List.Perm.refl _
  | cons x xs ih =>
    exact (insertByKey_perm f x (sortByKey f xs)).trans (ih.cons x)

theorem pairwise_insertByKey {α β : Type} [LinearOrder β] (f : α → β) (x : α)
    {l : List α} (h : l.Pairwise (fun a b => f a ≤ f b)) :
    (insertByKey f x l).Pairwise (fun a b => f a ≤ f b) := by
  induction l with
  | nil => simp [insertByKey]
  | cons y ys ih =>
    rw [List.pairwise_cons] at h
    obtain ⟨hy, ht⟩ := h
    unfold insertByKey
    by_cases hxy : f y ≤ f x
    · rw [if_pos hxy]
      rw [List.pairwise_cons]
      refine ⟨?_, ih ht⟩
      intro z hz
      rcases List.mem_cons.mp ((insertByKey_perm f x ys).mem_iff.mp hz) with rfl | hz
      · exact hxy
      · exact hy z hz
    · rw [if_neg hxy]
      rw [List.pairwise_cons]
      refine ⟨?_, List.pairwise_cons.mpr ⟨hy, ht⟩⟩
      intro z hz
      rcases List.mem_cons.mp hz with rfl | hz
      · exact (not_le.mp hxy).le
      · exact le_trans (not_le.mp hxy).le (hy z hz)

theorem sortByKey_pairwise {α β : Type} [LinearOrder β] (f : α → β) (l : List α) :
    (sortByKey f l).Pairwise (fun a b => f a ≤ f b) := by
  induction l with
  | nil => simp [sortByKey]
  | cons x xs ih => exact pairwise_insertByKey f x ih

theorem filter_isSome_map_getD (l : List Segment) :
    (l.filter (fun x => x.summaryS3Key.isSome)).map (fun x => x.summaryS3Key.getD "")
      = l.filterMap (fun x => x.summaryS3Key) := by
  induction l with
  | nil => rfl
  | cons x xs ih =>
    cases hx : x.summaryS3Key with
    | none => simp [List.filter_cons, List.filterMap_cons, hx, ih]
    | some k => simp [List.filter_cons, List.filterMap_cons, hx, ih]

theorem applyChunkSuccesses_mono (threshold : Nat) (sessionId : String) :
    ∀ (outs : List FWOutput) (s : WM.Session),
      s.lastKeptEndSeconds
        ≤ (WM.applyChunkSuccesses threshold sessionId s outs).lastKeptEndSeconds := by
  intro outs
  induction outs with
  | nil => intro s; exact le_refl _
  | cons o os ih =>
    intro s
    have hstep : s.lastKeptEndSeconds
        ≤ (WM.mergeAndMaybeSummarize threshold sessionId (some s) o).session.lastKeptEndSeconds := by
      rw [merge_lastKept]
      exact le_max_left _ _
    have hrest := ih (WM.mergeAndMaybeSummarize threshold sessionId (some s) o).session
    unfold WM.applyChunkSuccesses at hrest ⊢
    rw [List.foldl_cons]
    exact le_trans hstep hrest

/-! ## Claim theorems -/

/-- C1: in the watermark revision of `mergeAndMaybeSummarize`, a flattened
word is kept (and so can contribute to the merged text, which is the clean
join of the kept words) if and only if its end time exceeds
`lastKeptEndSeconds − ε` with `ε = 0.15`; in particular no kept word has an
end time at or below `lastKeptEndSeconds − ε`. -/
theorem spec_C1 (s : WM.Session) (out : FWOutput) (w : FWWord) :
    (w ∈ WM.mergeKept s out ↔
      w ∈ WM.flattenWords out ∧ s.lastKeptEndSeconds - WM.epsilon < jsOr0 w.endTime)
    ∧ (w ∈ WM.mergeKept s out → ¬(jsOr0 w.endTime ≤ s.lastKeptEndSeconds - WM.epsilon))
    ∧ WM.mergeText s out = cleanJoin (WM.mergeKept s out) := by
  unfold WM.mergeKept WM.mergeText
  refine ⟨mem_watermarkKept _ _ _, ?_, rfl⟩
  intro hm
  exact not_le.mpr ((mem_watermarkKept _ _ _).mp hm).2

theorem spec_C1_witness :
    demoWordB ∈ WM.mergeKept demoSessionC1 demoOutputC1
    ∧ ¬(jsOr0 demoWordB.endTime ≤ demoSessionC1.lastKeptEndSeconds - WM.epsilon) := by
  have hmem : demoWordB ∈ WM.mergeKept demoSessionC1 demoOutputC1 := by
    norm_num [WM.mergeKept, WM.watermarkKept, WM.flattenWords, WM.flattenOne,
      demoOutputC1, demoSessionC1, demoWordB, WM.epsilon, jsOr0, WM.freshSession]
  exact ⟨hmem, (spec_C1 demoSessionC1 demoOutputC1 demoWordB).2.1 hmem⟩

/-- C2: the watermark stored by `mergeAndMaybeSummarize` equals the maximum
of the previous `lastKeptEndSeconds` and the end times of all flattened
words of the chunk (pre-filter); it never decreases, also across any
sequence of chunk-success merges, and an empty flattened word list leaves it
unchanged.  The equality and the empty-list case assume the (invariantly
true) non-negativity of the stored watermark, which absorbs the extra `0`
floor in `Math.max(0, ...)`. -/
theorem spec_C2 (threshold : Nat) (sessionId : String) (s : WM.Session)
    (out : FWOutput) :
    (0 ≤ s.lastKeptEndSeconds →
      (WM.mergeAndMaybeSummarize threshold sessionId (some s) out).session.lastKeptEndSeconds
          = maxEndFrom s.lastKeptEndSeconds (WM.flattenWords out)
        ∧ (WM.flattenWords out = [] →
            (WM.mergeAndMaybeSummarize threshold sessionId (some s) out).session.lastKeptEndSeconds
              = s.lastKeptEndSeconds))
    ∧ s.lastKeptEndSeconds
        ≤ (WM.mergeAndMaybeSummarize threshold sessionId (some s) out).session.lastKeptEndSeconds
    ∧ (0 ≤ s.lastKeptEndSeconds →
        0 ≤ (WM.mergeAndMaybeSummarize threshold sessionId (some s) out).session.lastKeptEndSeconds)
    ∧ (∀ outs : List FWOutput,
        s.lastKeptEndSeconds
          ≤ (WM.applyChunkSuccesses threshold sessionId s outs).lastKeptEndSeconds) := by
  refine ⟨?_, ?_, ?_, fun outs => applyChunkSuccesses_mono threshold sessionId outs s⟩
  · intro h
    constructor
    · rw [merge_lastKept]
      unfold WM.mergeNewEnd
      rw [show WM.maxEndInChunk (WM.flattenWords out)
            = maxEndFrom 0 (WM.flattenWords out) from rfl]
      rw [maxEndFrom_hoist, max_eq_left h]
    · intro hnil
      rw [merge_lastKept]
      unfold WM.mergeNewEnd WM.maxEndInChunk
      rw [hnil]
      simp [max_eq_left h]
  · rw [merge_lastKept]
    exact le_max_left _ _
  · intro h
    rw [merge_lastKept]
    exact le_trans h (le_max_left _ _)

theorem spec_C2_witness :
    (WM.mergeAndMaybeSummarize 1200 "s" (some (WM.freshSession "s")) demoOutput).session.lastKeptEndSeconds
      = maxEndFrom (WM.freshSession "s").lastKeptEndSeconds (WM.flattenWords demoOutput) :=
  ((spec_C2 1200 "s" (WM.freshSession "s") demoOutput).1 (by norm_num [WM.freshSession])).1

/-- C4: in the watermark revision of `mergeAndMaybeSummarize`, a segment is
cut exactly when the updated rolling token count reaches the threshold and
the combined text is non-empty; on a cut the new segment carries
`nextSegmentIndex` and the combined token count, the rolling state resets to
empty/zero and `nextSegmentIndex` advances by one; below the threshold the
rolling state accumulates and no segment is created.  The hypothesis is the
reachability invariant that a stored rolling text is empty whenever its trim
is empty (rolling text is always either empty or contains a non-space). -/
theorem spec_C4 (threshold : Nat) (sessionId : String) (s : WM.Session)
    (out : FWOutput)
    (hinv : jsTrim s.rollingText = "" → s.rollingText = "") :
    ((WM.mergeAndMaybeSummarize threshold sessionId (some s) out).createdSegment ≠ none ↔
      (WM.mergeCombined s out ≠ "" ∧ threshold ≤ WM.mergeNewTokenCount s out))
    ∧ (WM.mergeCombined s out ≠ "" → threshold ≤ WM.mergeNewTokenCount s out →
        (WM.mergeAndMaybeSummarize threshold sessionId (some s) out).createdSegment =
          some { sessionId := sessionId, segmentIndex := s.nextSegmentIndex,
                 status := "PENDING", tokenCount := some (WM.mergeNewTokenCount s out) }
        ∧ (WM.mergeAndMaybeSummarize threshold sessionId (some s) out).session.nextSegmentIndex
            = s.nextSegmentIndex + 1
        ∧ (WM.mergeAndMaybeSummarize threshold sessionId (some s) out).session.rollingText = ""
        ∧ (WM.mergeAndMaybeSummarize threshold sessionId (some s) out).session.rollingTokenCount = 0
        ∧ (WM.mergeAndMaybeSummarize threshold sessionId (some s) out).summarizerCalls
            = [(sessionId, s.nextSegmentIndex, segInputKey sessionId s.nextSegmentIndex)])
    ∧ (¬(WM.mergeCombined s out ≠ "" ∧ threshold ≤ WM.mergeNewTokenCount s out) →
        (WM.mergeAndMaybeSummarize threshold sessionId (some s) out).createdSegment = none
        ∧ (WM.mergeAndMaybeSummarize threshold sessionId (some s) out).session.rollingText
            = WM.mergeCombined s out
        ∧ (WM.mergeAndMaybeSummarize threshold sessionId (some s) out).session.rollingTokenCount
            = WM.mergeNewTokenCount s out
        ∧ (WM.mergeAndMaybeSummarize threshold sessionId (some s) out).session.nextSegmentIndex
            = s.nextSegmentIndex
        ∧ (WM.mergeAndMaybeSummarize threshold sessionId (some s) out).summarizerCalls = []) := by
  by_cases hs : WM.shouldSummarize threshold s out
  · have hc := (shouldSummarize_iff threshold s out hinv).mp hs
    refine ⟨?_, ?_, ?_⟩
    · simp [WM.mergeAndMaybeSummarize, hs, hc]
    · intro h1 h2
      simp [WM.mergeAndMaybeSummarize, hs]
    · intro h
      exact absurd hc h
  · have hc : ¬(WM.mergeCombined s out ≠ "" ∧ threshold ≤ WM.mergeNewTokenCount s out) := by
      intro h
      exact hs ((shouldSummarize_iff threshold s out hinv).mpr h)
    refine ⟨?_, ?_, ?_⟩
    · simp only [WM.mergeAndMaybeSummarize, Option.getD_some, Bool.not_eq_true] at *
      rw [if_neg (by simp [hs])]
      simp [hc]
    · intro h1 h2
      exact absurd ⟨h1, h2⟩ hc
    · intro h
      simp only [WM.mergeAndMaybeSummarize, Option.getD_some, Bool.not_eq_true] at *
      rw [if_neg (by simp [hs])]
      simp

theorem watermarkKept_all (lk : ℚ) (ws : List FWWord)
    (h : ∀ w ∈ ws, lk - WM.epsilon < jsOr0 w.endTime) :
    WM.watermarkKept lk ws = ws := by
  induction ws with
  | nil => rfl
  | cons x xs ih =>
    unfold WM.watermarkKept
    rw [if_pos (h x (List.mem_cons_self x xs))]
    rw [ih (fun w hw => h w (List.mem_cons_of_mem x hw))]

theorem demoOutput_kept :
    WM.mergeKept (WM.freshSession "s") demoOutput = WM.flattenWords demoOutput := by
  apply watermarkKept_all
  intro w hw
  simp [WM.flattenWords, WM.flattenOne, demoOutput] at hw
  rw [hw]
  norm_num [WM.epsilon, jsOr0, WM.freshSession]

theorem demoOutput_tokenCount :
    WM.mergeNewTokenCount (WM.freshSession "s") demoOutput = 3 := by
  unfold WM.mergeNewTokenCount WM.mergeText
  rw [demoOutput_kept]
  rfl

theorem spec_C4_witness :
    (WM.mergeAndMaybeSummarize 1200 "s" (some (WM.freshSession "s")) demoOutput).createdSegment = none
    ∧ (WM.mergeAndMaybeSummarize 1200 "s" (some (WM.freshSession "s")) demoOutput).session.rollingText
        = WM.mergeCombined (WM.freshSession "s") demoOutput
    ∧ (WM.mergeAndMaybeSummarize 1200 "s" (some (WM.freshSession "s")) demoOutput).session.rollingTokenCount
        = WM.mergeNewTokenCount (WM.freshSession "s") demoOutput
    ∧ (WM.mergeAndMaybeSummarize 1200 "s" (some (WM.freshSession "s")) demoOutput).session.nextSegmentIndex
        = (WM.freshSession "s").nextSegmentIndex
    ∧ (WM.mergeAndMaybeSummarize 1200 "s" (some (WM.freshSession "s")) demoOutput).summarizerCalls = [] :=
  (spec_C4 1200 "s" (WM.freshSession "s") demoOutput (fun _ => rfl)).2.2
    (by
      rintro ⟨-, hn⟩
      rw [demoOutput_tokenCount] at hn
      omega)

theorem updateSession_segments (st : V1.Store) (sid : String)
    (f : V1.Session → V1.Session) :
    (V1.updateSession st sid f).segments = st.segments := rfl

theorem s3Put_segments (st : V1.Store) (k : String) (b : S3Body) (c : String) :
    (V1.s3Put st k b c).segments = st.segments := rfl

theorem s3Put_sessions (st : V1.Store) (k : String) (b : S3Body) (c : String) :
    (V1.s3Put st k b c).sessions = st.sessions := rfl

theorem createSegment_sessions (st : V1.Store) (g : Segment) :
    (V1.createSegment st g).sessions = st.sessions := by
  unfold V1.createSegment
  split <;> rfl

theorem invokeChunkSummarizer_sessions (st : V1.Store) (sid : String) (idx : Nat)
    (k : String) : (V1.invokeChunkSummarizer st sid idx k).sessions = st.sessions := rfl

theorem invokeChunkSummarizer_segments (st : V1.Store) (sid : String) (idx : Nat)
    (k : String) :
    (V1.invokeChunkSummarizer st sid idx k).segments
      = (st.segments.map (fun g =>
            if g.sessionId == sid && g.segmentIndex == idx then
              { g with status := "SUMMARIZING" } else g)).map
          (fun g =>
            if g.sessionId == sid && g.segmentIndex == idx then
              { g with status := "SUCCEEDED",
                       summaryS3Key := some (segmentSummaryKey sid idx) } else g) := rfl

theorem segPatch_fresh (l : List Segment) (sid : String) (idx : Nat)
    (f : Segment → Segment)
    (h : ∀ g ∈ l, g.sessionId = sid → g.segmentIndex ≠ idx) :
    l.map (fun g => if g.sessionId == sid && g.segmentIndex == idx then f g else g) = l := by
  have hc : ∀ g ∈ l, (fun g => if g.sessionId == sid && g.segmentIndex == idx then f g else g) g
      = id g := by
    intro g hg
    have hb : (g.sessionId == sid && g.segmentIndex == idx) = false := by
      by_cases hsid : g.sessionId = sid
      · have := h g hg hsid
        simp [hsid, this]
      · simp [hsid]
    simp [hb]
  rw [List.map_congr_left hc, List.map_id]

theorem createSegment_fresh (st : V1.Store) (g : Segment)
    (h : ∀ x ∈ st.segments, x.sessionId = g.sessionId → x.segmentIndex ≠ g.segmentIndex) :
    (V1.createSegment st g).segments = st.segments ++ [g] := by
  unfold V1.createSegment
  have ha : st.segments.any (fun x =>
      x.sessionId == g.sessionId && x.segmentIndex == g.segmentIndex) = false := by
    rw [List.any_eq_false]
    intro x hx
    by_cases hsid : x.sessionId = g.sessionId
    · have := h x hx hsid
      simp [hsid, this]
    · simp [hsid]
  rw [ha]
  simp

/-- C7: on a finalize request for an existing session, a non-empty (after
trimming) rolling text produces exactly one additional segment at index
`nextSegmentIndex` before summary combination (it ends SUCCEEDED with its
summary key, since the summarizer is awaited inline), `nextSegmentIndex`
advances by one and the rolling state resets to empty/zero; an empty rolling
text produces no additional segment.  `hfresh` is the reachability invariant
that no segment row exists yet at the index about to be assigned. -/
theorem spec_C7 (st : V1.Store) (sessionId : String) (t p o a : Option Int)
    (s : V1.Session)
    (hs : st.sessions sessionId = some s)
    (hfresh : ∀ g ∈ st.segments, g.sessionId = sessionId → g.segmentIndex ≠ s.nextSegmentIndex) :
    (jsTrim s.rollingText ≠ "" →
      (V1.finalizeFlushStore st sessionId t p o a).segments
          = st.segments ++ [{ sessionId := sessionId, segmentIndex := s.nextSegmentIndex,
                              status := "SUCCEEDED",
                              summaryS3Key := some (segmentSummaryKey sessionId s.nextSegmentIndex) }]
        ∧ ((V1.finalizeFlushStore st sessionId t p o a).sessions sessionId).map
            (fun u => (u.nextSegmentIndex, u.rollingText, u.rollingTokenCount))
            = some (s.nextSegmentIndex + 1, "", 0))
    ∧ (jsTrim s.rollingText = "" →
        (V1.finalizeFlushStore st sessionId t p o a).segments = st.segments) := by
  have hs1 : (V1.updateSession st sessionId (V1.finalizePatch t p o a)).sessions sessionId
      = some (V1.finalizePatch t p o a s) := by
    simp [V1.updateSession, hs]
  have hroll : (V1.finalizePatch t p o a s).rollingText = s.rollingText := rfl
  have hidx : (V1.finalizePatch t p o a s).nextSegmentIndex = s.nextSegmentIndex := rfl
  constructor
  · intro hne
    constructor
    · unfold V1.finalizeFlushStore
      simp only [hs1]
      unfold V1.finalizeFlushGo
      rw [hroll, hidx, if_pos hne]
      rw [updateSession_segments, invokeChunkSummarizer_segments]
      rw [createSegment_fresh _ _ (by
        rw [s3Put_segments, updateSession_segments]
        exact hfresh)]
      rw [s3Put_segments, updateSession_segments]
      rw [List.map_append, List.map_append]
      rw [segPatch_fresh st.segments sessionId s.nextSegmentIndex _ hfresh]
      rw [segPatch_fresh st.segments sessionId s.nextSegmentIndex _ hfresh]
      simp
    · unfold V1.finalizeFlushStore
      simp only [hs1]
      unfold V1.finalizeFlushGo
      rw [hroll, hidx, if_pos hne]
      unfold V1.updateSession
      simp [invokeChunkSummarizer_sessions, createSegment_sessions,
        s3Put_sessions, V1.updateSession, hs, hidx]
  · intro hemp
    unfold V1.finalizeFlushStore
    simp only [hs1]
    unfold V1.finalizeFlushGo
    rw [hroll, if_neg (by simpa using hemp)]
    rfl

theorem spec_C7_witness :
    (V1.finalizeFlushStore demoStoreC7 "s1" none none none none).segments
        = demoStoreC7.segments
          ++ [{ sessionId := "s1", segmentIndex := demoV1Session.nextSegmentIndex,
                status := "SUCCEEDED",
                summaryS3Key := some (segmentSummaryKey "s1" demoV1Session.nextSegmentIndex) }]
    ∧ ((V1.finalizeFlushStore demoStoreC7 "s1" none none none none).sessions "s1").map
        (fun u => (u.nextSegmentIndex, u.rollingText, u.rollingTokenCount))
        = some (demoV1Session.nextSegmentIndex + 1, "", 0) :=
  (spec_C7 demoStoreC7 "s1" none none none none demoV1Session (by decide)
      (by intro g hg; simp [demoStoreC7] at hg)).1 (by decide)

/-- C9: the summary keys collected by finalize and passed to the combination
step are exactly the recorded `summaryS3Key`s of the post-flush segment rows
of the session, enumerated in ascending `segmentIndex` order (the sorted
enumeration is a permutation of the stored rows of the session), with rows
lacking a recorded key skipped. -/
theorem spec_C9 (st : V1.Store) (sessionId : String) (t p o a : Option Int) :
    V1.finalizeCollectedKeys (V1.finalizeFlushStore st sessionId t p o a) sessionId
        = (V1.getSegmentsBySession (V1.finalizeFlushStore st sessionId t p o a) sessionId).filterMap
            (fun g => g.summaryS3Key)
    ∧ (V1.getSegmentsBySession (V1.finalizeFlushStore st sessionId t p o a) sessionId).Pairwise
        (fun g1 g2 => g1.segmentIndex ≤ g2.segmentIndex)
    ∧ List.Perm (V1.getSegmentsBySession (V1.finalizeFlushStore st sessionId t p o a) sessionId)
        ((V1.finalizeFlushStore st sessionId t p o a).segments.filter
          (fun g => g.sessionId == sessionId)) :=
  ⟨filter_isSome_map_getD _, sortByKey_pairwise _ _, sortByKey_perm _ _⟩

theorem demoOutputC8_kept :
    WM.mergeKept (WM.freshSession "s") demoOutputC8 = WM.flattenWords demoOutputC8 := by
  apply watermarkKept_all
  intro w hw
  simp [WM.flattenWords, WM.flattenOne, demoOutputC8] at hw
  rw [hw]
  norm_num [WM.epsilon, jsOr0, WM.freshSession]

theorem demoOutputC8_text :
    WM.mergeText (WM.freshSession "s") demoOutputC8 = "abcd" := by
  unfold WM.mergeText
  rw [demoOutputC8_kept]
  rfl

theorem demoOutputC8_combined :
    WM.mergeCombined (WM.freshSession "s") demoOutputC8 = " abcd" := by
  unfold WM.mergeCombined
  rw [demoOutputC8_text]
  rfl

theorem demoOutputC8_tokenCount :
    WM.mergeNewTokenCount (WM.freshSession "s") demoOutputC8 = 1 := by
  unfold WM.mergeNewTokenCount WM.mergeText
  rw [demoOutputC8_kept]
  rfl

theorem demoOutputC8_should :
    WM.shouldSummarize 1200 (WM.freshSession "s") demoOutputC8 = false := by
  unfold WM.shouldSummarize
  rw [demoOutputC8_combined, demoOutputC8_tokenCount]
  rfl

/-- C8 counterexample: merging the chunk text `abcd` into a fresh session
(empty rolling text, zero count) stores rolling text `" abcd"` — a space is
prepended even though the rolling text was empty — with rolling token count
1, while the token estimate of the stored rolling text is 2.  So
`rollingTokenCount` is not the token estimate of `rollingText`, and the
separating space is not added only when both parts are non-empty. -/
theorem spec_C8_counterexample :
    (WM.mergeAndMaybeSummarize 1200 "s" (some (WM.freshSession "s")) demoOutputC8).session.rollingTokenCount = 1
    ∧ (WM.mergeAndMaybeSummarize 1200 "s" (some (WM.freshSession "s")) demoOutputC8).session.rollingText = " abcd"
    ∧ estimateTokens " abcd" = 2
    ∧ (WM.mergeAndMaybeSummarize 1200 "s" (some (WM.freshSession "s")) demoOutputC8).session.rollingTokenCount
        ≠ estimateTokens
            (WM.mergeAndMaybeSummarize 1200 "s" (some (WM.freshSession "s")) demoOutputC8).session.rollingText
    ∧ (WM.freshSession "s").rollingText = "" := by
  have hm : (WM.mergeAndMaybeSummarize 1200 "s" (some (WM.freshSession "s")) demoOutputC8).session.rollingTokenCount = 1 := by
    simp [WM.mergeAndMaybeSummarize, demoOutputC8_should, demoOutputC8_tokenCount]
  have ht : (WM.mergeAndMaybeSummarize 1200 "s" (some (WM.freshSession "s")) demoOutputC8).session.rollingText = " abcd" := by
    simp [WM.mergeAndMaybeSummarize, demoOutputC8_should, demoOutputC8_combined]
  refine ⟨hm, ht, rfl, ?_, rfl⟩
  rw [hm, ht]
  decide

/-- C8 amended: after a merge step that does not cut, the rolling token
count increases by exactly the token estimate of the newly merged
(watermark-filtered) text, and that text is appended to the rolling text
preceded by a single space whenever it is non-empty — even when the rolling
text was empty; `rollingTokenCount` therefore tracks the running sum of
per-chunk token estimates rather than the token estimate of the stored
`rollingText`.  After a cut, and after a finalize flush of a non-empty
rolling buffer, the rolling text is empty and the count is 0, which is the
token estimate of the empty rolling text. -/
theorem spec_C8_amended (threshold : Nat) (sessionId : String) (s : WM.Session)
    (out : FWOutput) :
    (WM.shouldSummarize threshold s out = false →
      (WM.mergeAndMaybeSummarize threshold sessionId (some s) out).session.rollingText
          = s.rollingText ++ (if WM.mergeText s out = "" then "" else " " ++ WM.mergeText s out)
      ∧ (WM.mergeAndMaybeSummarize threshold sessionId (some s) out).session.rollingTokenCount
          = s.rollingTokenCount + estimateTokens (WM.mergeText s out))
    ∧ (WM.shouldSummarize threshold s out = true →
        (WM.mergeAndMaybeSummarize threshold sessionId (some s) out).session.rollingText = ""
        ∧ (WM.mergeAndMaybeSummarize threshold sessionId (some s) out).session.rollingTokenCount
            = estimateTokens
                (WM.mergeAndMaybeSummarize threshold sessionId (some s) out).session.rollingText)
    ∧ (∀ (st : V1.Store) (t p o a : Option Int) (u : V1.Session),
        st.sessions sessionId = some u → jsTrim u.rollingText ≠ "" →
          ((V1.finalizeFlushStore st sessionId t p o a).sessions sessionId).map
              (fun v => (v.rollingText, v.rollingTokenCount)) = some ("", 0)) := by
  refine ⟨?_, ?_, ?_⟩
  · intro h
    constructor
    · simp [WM.mergeAndMaybeSummarize, h, WM.mergeCombined]
    · simp [WM.mergeAndMaybeSummarize, h, WM.mergeNewTokenCount]
  · intro h
    constructor
    · simp [WM.mergeAndMaybeSummarize, h]
    · simp [WM.mergeAndMaybeSummarize, h, estimateTokens]
  · intro st t p o a u hs hne
    have hs1 : (V1.updateSession st sessionId (V1.finalizePatch t p o a)).sessions sessionId
        = some (V1.finalizePatch t p o a u) := by
      simp [V1.updateSession, hs]
    have hroll : (V1.finalizePatch t p o a u).rollingText = u.rollingText := rfl
    unfold V1.finalizeFlushStore
    simp only [hs1]
    unfold V1.finalizeFlushGo
    rw [hroll, if_pos hne]
    unfold V1.updateSession
    simp [invokeChunkSummarizer_sessions, createSegment_sessions,
      s3Put_sessions, V1.updateSession, hs]

theorem spec_C8_amended_witness :
    ((WM.mergeAndMaybeSummarize 1200 "s" (some (WM.freshSession "s")) demoOutputC8).session.rollingText
        = (WM.freshSession "s").rollingText
            ++ (if WM.mergeText (WM.freshSession "s") demoOutputC8 = "" then ""
                else " " ++ WM.mergeText (WM.freshSession "s") demoOutputC8)
      ∧ (WM.mergeAndMaybeSummarize 1200 "s" (some (WM.freshSession "s")) demoOutputC8).session.rollingTokenCount
        = (WM.freshSession "s").rollingTokenCount
            + estimateTokens (WM.mergeText (WM.freshSession "s") demoOutputC8))
    ∧ ((V1.finalizeFlushStore demoStoreC7 "s1" none none none none).sessions "s1").map
        (fun v => (v.rollingText, v.rollingTokenCount)) = some ("", 0) := by
  constructor
  · exact (spec_C8_amended 1200 "s" (WM.freshSession "s") demoOutputC8).1 demoOutputC8_should
  · exact (spec_C8_amended 1200 "s1" (WM.freshSession "s1") demoOutputC8).2.2
      demoStoreC7 none none none none demoV1Session (by decide) (by decide)

/-- C5: the offset-plumbing revision computes `offsetSeconds = startMs/1000`
in `handleSuccess` and passes it to `mergeAndMaybeSummarize`, but the merge
calls `flattenWords(output)` without forwarding it, so the words feeding
the sort, the watermark filter and the watermark update keep their raw
chunk-relative times.  For a chunk starting at 2000 ms whose word spans
[0s, 1s], the merge uses times [0, 1] while the session-relative offset
words would be [2, 3].  This evaluates the code at that failing input. -/
theorem spec_C5 :
    OFF.mergeWordsUsed demoOutputC5 (OFF.handleSuccessOffsetSeconds 2000)
        = [{ word := "hi ", start := some 0, endTime := some 1 }]
    ∧ V1.flattenWords demoOutputC5 (OFF.handleSuccessOffsetSeconds 2000)
        = [{ word := "hi ", start := some 2, endTime := some 3 }]
    ∧ OFF.mergeWordsUsed demoOutputC5 (OFF.handleSuccessOffsetSeconds 2000)
        ≠ V1.flattenWords demoOutputC5 (OFF.handleSuccessOffsetSeconds 2000) := by
  have hup : cleanupWord "hi" = "hi" := by decide
  have happ : "hi" ++ " " = "hi " := by decide
  have hoff : OFF.handleSuccessOffsetSeconds 2000 = 2 := by
    norm_num [OFF.handleSuccessOffsetSeconds]
  refine ⟨?_, ?_, ?_⟩
  · norm_num [OFF.mergeWordsUsed, V1.flattenWords, demoOutputC5, sortByKey,
      insertByKey, hup, happ, Option.orElse]
  · rw [hoff]
    norm_num [V1.flattenWords, demoOutputC5, sortByKey, insertByKey, hup, happ, Option.orElse]
  · rw [hoff]
    norm_num [OFF.mergeWordsUsed, V1.flattenWords, demoOutputC5, sortByKey,
      insertByKey, hup, happ, Option.orElse]

/-- C3: re-invoking `handleSuccess` for a chunk that is already SUCCEEDED
with a recorded transcript key returns immediately: the store — chunks,
sessions, segments, object-storage writes and Lambda invocations — is
unchanged. -/
theorem spec_C3 (threshold : Nat) (st : V1.Store) (sessionId : String)
    (seq : Nat) (out : FWOutput) (startMs : ℚ) (c : Chunk)
    (h1 : st.chunks sessionId seq = some c)
    (h2 : c.status = "SUCCEEDED")
    (h3 : c.transcriptS3Key ≠ none) :
    V1.handleSuccess threshold st sessionId seq out startMs = st := by
  unfold V1.handleSuccess
  rw [h1]
  have hg : V1.succeededGuard (some c) = true := by
    simp [V1.succeededGuard, h2, Option.isSome_iff_ne_none, h3]
  rw [hg]
  simp

theorem spec_C3_witness :
    V1.handleSuccess 1200 demoStoreC3 "s1" 3 demoOutput 0 = demoStoreC3 :=
  spec_C3 1200 demoStoreC3 "s1" 3 demoOutput 0 demoChunk (by decide) (by decide) (by decide)

/-- C6: a callback delivery whose uppercased status is not one of the six
recognized strings returns a success acknowledgement (with the ignored
marker) and leaves the store — every Chunk, Session and Segment — untouched. -/
theorem spec_C6 (threshold : Nat) (st : V1.Store) (sessionId : String)
    (seq : Nat) (startMs : ℚ) (body : V1.CallbackBody)
    (h : jsToUpper (body.status.getD "") ∉
      ["IN_QUEUE", "IN_PROGRESS", "FAILED", "CANCELLED", "SUCCEEDED", "COMPLETED"]) :
    V1.runpodCallback threshold st sessionId seq startMs body
      = ({ ok := true, ignored := true }, st) := by
  simp only [List.mem_cons, List.not_mem_nil, or_false, not_or] at h
  obtain ⟨h1, h2, h3, h4, h5, h6⟩ := h
  simp [V1.runpodCallback, h1, h2, h3, h4, h5, h6]

theorem spec_C6_witness :
    V1.runpodCallback 1200 demoStore "s1" 3 0 { status := some "UNKNOWN_FOO" }
      = ({ ok := true, ignored := true }, demoStore) :=
  spec_C6 1200 demoStore "s1" 3 0 { status := some "UNKNOWN_FOO" } (by decide)

/-- C10: callback status matching is case-insensitive — the handler responds
to a body exactly as it responds to the same body with the status
uppercased (so lowercase or mixed-case statuses are handled identically to
their uppercase forms) — and an absent status field is treated as an
unknown status: the call acknowledges success, marks the delivery ignored
and mutates nothing. -/
theorem spec_C10 (threshold : Nat) (st : V1.Store) (sessionId : String)
    (seq : Nat) (startMs : ℚ) (body : V1.CallbackBody) (s : String) :
    V1.runpodCallback threshold st sessionId seq startMs { body with status := some s }
        = V1.runpodCallback threshold st sessionId seq startMs
            { body with status := some (jsToUpper s) }
    ∧ V1.runpodCallback threshold st sessionId seq startMs { body with status := none }
        = ({ ok := true, ignored := true }, st) := by
  constructor
  · simp only [V1.runpodCallback, Option.getD_some, jsToUpper_idem]
  · simp [V1.runpodCallback, jsToUpper]
